import Mathlib

/-!
Formal model of the DDR assistant ingestion pipeline
(`src/ddr_assistant/utils/{pdf_processor,report_processor,db_manager,batch_processor}.py`).

The Python code is shallowly embedded: table cells are `Option String`
(a pandas null becomes `none`, every non-null cell extracted by the
lattice table reader is a string), Python dictionaries keyed by
normalized labels become association lists in insertion order, and a
parsed numeric value is represented exactly as a pair
`(mantissa : Int, fracDigits : Nat)` standing for
`mantissa / 10 ^ fracDigits` (the decimal substrings handled here are
exact, so no floating-point rounding is involved; `decValue` gives the
rational meaning).  Strict float comparisons of the form
`count / len > c` in the source are rendered as the equivalent integer
comparisons (for the constants 0.2 and 0.3 and realistic list lengths
the double-precision comparison agrees with the exact rational one).
-/

namespace DDR

/-! ## Generic string helpers (Python `in`, `str.lower`, `str.strip`) -/

/-- Is the first list a leading segment of the second (used to build the
Python substring test)? -/
def chLeads : List Char → List Char → Bool
  | [], _ => true
  | _ :: _, [] => false
  | a :: as, b :: bs => a = b && chLeads as bs

/-- Does the second list contain the first as a contiguous segment? -/
def chSub (pat : List Char) : List Char → Bool
  | [] => chLeads pat []
  | b :: bs => chLeads pat (b :: bs) || chSub pat bs

/-- Python `needle in hay` on strings. -/
def pyIn (needle hay : String) : Bool := chSub needle.data hay.data

/-- Python `str.lower` (ASCII, which covers the labels concerned). -/
def pyLower (s : String) : String := String.mk (s.data.map Char.toLower)

/-- Python `str.strip`: drop whitespace from both ends. -/
def pyStrip (s : String) : String :=
  String.mk (((s.data.dropWhile Char.isWhitespace).reverse.dropWhile
    Char.isWhitespace).reverse)

/-- Python `s.split(sep)` for a one-character separator, on char lists:
every occurrence splits, empty pieces are kept, and the empty string
yields one empty piece. -/
def pySplitCh (sep : Char) : List Char → List (List Char)
  | [] => [[]]
  | c :: cs =>
    let r := pySplitCh sep cs
    if c = sep then [] :: r
    else
      match r with
      | [] => [[c]]
      | h :: t => (c :: h) :: t

/-- Python `stem.split(&#95;)` lifted to strings. -/
def pySplitUnderscore (s : String) : List String :=
  (pySplitCh (Char.ofNat 95) s.data).map String.mk

/-! ## Numeric coercion
Model of `re.search(r'[-+]?\d*\.\d+|\d+', value)` followed by `float`,
as used in `ReportProcessor._create_metadata_from_tables`,
`_create_operations_from_table` and `_create_gas_readings_from_table`. -/

/-- Maximal leading run of decimal digits, with the remainder. -/
def takeDigits : List Char → List Char × List Char
  | [] => ([], [])
  | c :: cs =>
    if c.isDigit then
      let p := takeDigits cs
      (c :: p.1, p.2)
    else ([], c :: cs)

/-- Body of the first regex alternative after the optional sign:
`\d*\.\d+` with maximal munch. -/
def matchDecBody (sgn : List Char) (rest : List Char) : Option (List Char) :=
  match takeDigits rest with
  | (ip, r2) =>
    match r2 with
    | c :: r3 =>
      if c = Char.ofNat 46 then
        match takeDigits r3 with
        | (fp, _) => if fp.isEmpty then none else some (sgn ++ ip ++ c :: fp)
      else none
    | [] => none

/-- Try the first regex alternative `[-+]?\d*\.\d+` at this position,
returning the matched characters.  The optional sign and the greedy
digit runs cannot backtrack usefully here because the mandatory dot is
never a digit or a sign, so maximal munch is exact. -/
def matchDecAt : List Char → Option (List Char)
  | [] => none
  | c :: cs =>
    if c = Char.ofNat 45 || c = Char.ofNat 43 then matchDecBody [c] cs
    else matchDecBody [] (c :: cs)

/-- Try the second regex alternative `\d+` at this position. -/
def matchIntAt (l : List Char) : Option (List Char) :=
  let p := takeDigits l
  if p.1.isEmpty then none else some p.1

/-- Python `re.search` for the numeric pattern: scan positions left to
right; at each position try the decimal alternative first, then the
integer alternative. -/
def numSearch : List Char → Option (List Char)
  | [] => none
  | c :: cs =>
    match matchDecAt (c :: cs) with
    | some m => some m
    | none =>
      match matchIntAt (c :: cs) with
      | some m => some m
      | none => numSearch cs

/-- Digit characters to a natural number. -/
def digitsToNat (l : List Char) : Nat :=
  l.foldl (fun acc c => 10 * acc + (c.toNat - 48)) 0

/-- Exact decimal value of a matched substring, as
(mantissa, number of fractional digits). -/
def decOfMatch (m : List Char) : Int × Nat :=
  let body : List Char × Bool :=
    match m with
    | c :: rest =>
      if c = Char.ofNat 45 then (rest, true)
      else if c = Char.ofNat 43 then (rest, false)
      else (m, false)
    | [] => ([], false)
  let ip := takeDigits body.1
  let mag : Nat × Nat :=
    match ip.2 with
    | _ :: frac => (digitsToNat (ip.1 ++ frac), frac.length)
    | [] => (digitsToNat ip.1, 0)
  (if body.2 then -(mag.1 : Int) else (mag.1 : Int), mag.2)

/-- The numeric coercion applied to a string cell: regex search, then
float conversion; no match yields null and never raises. -/
def decodeNumeric (s : String) : Option (Int × Nat) :=
  (numSearch s.data).map decOfMatch

/-- Rational meaning of a decoded value. -/
def decValue (p : Int × Nat) : Rat := (p.1 : Rat) / (10 : Rat) ^ p.2

/-- Does the string contain a decimal digit? -/
def hasDigit (s : String) : Bool := s.data.any Char.isDigit

/-! ## Filename identity derivation
Model of `ReportProcessor.process_pdf_to_database` lines 39-48. -/

/-- Python `pathlib.Path(name).stem`: the name without its final
suffix; a name whose only dot is leading or trailing keeps itself. -/
def pathStem (name : String) : String :=
  let cs := name.data
  let post := cs.reverse.takeWhile (fun c => !(c = Char.ofNat 46))
  if post.length = cs.length then name
  else
    let i := cs.length - post.length - 1
    if 0 < i ∧ i < cs.length - 1 then String.mk (cs.take i) else name

/-- Wellbore name and report period from the filename stem: split on
underscore; with four or more tokens the last three joined by hyphens
form the period and the rest joined by underscores form the wellbore
name; otherwise the stem itself and the literal "Unknown". -/
def derive_identity (stem : String) : String × String :=
  if 4 ≤ (pySplitUnderscore stem).length then
    (String.intercalate "_" ((pySplitUnderscore stem).take
      ((pySplitUnderscore stem).length - 3)),
     String.intercalate "-" ((pySplitUnderscore stem).drop
      ((pySplitUnderscore stem).length - 3)))
  else (stem, "Unknown")

/-! ## Header noise filters
Model of `PDFProcessor.extract_sections` lines 82-87 and the helpers
`_has_duplicate_chars` / `_count_special_chars`. -/

/-- Number of adjacent equal alphabetic character pairs. -/
def dupPairCount : List Char → Nat
  | a :: b :: rest => (if a = b && a.isAlpha then 1 else 0) + dupPairCount (b :: rest)
  | _ => 0

/-- Python `_has_duplicate_chars`: the pair count strictly exceeds 20%
of the length (`dup > len * 0.2`, i.e. `5 * dup > len`). -/
def has_duplicate_chars (s : String) : Bool :=
  decide (s.data.length < 5 * dupPairCount s.data)

/-- Python `_count_special_chars`: characters that are neither
alphabetic nor whitespace; digits do count. -/
def count_special_chars (s : String) : Nat :=
  (s.data.filter (fun c => !c.isAlpha && !c.isWhitespace)).length

/-- The quality filter of `extract_sections`: a candidate header text is
dropped as noise when any of the three rules fires
(`special > len * 0.3` is `10 * special > 3 * len`). -/
def rejectAsNoise (s : String) : Bool :=
  has_duplicate_chars s
    || decide (100 < s.data.length)
    || decide (3 * s.data.length < 10 * count_special_chars s)

/-- The rejection rule as claimed: the third rule counts only
characters that are neither alphanumeric nor whitespace, so digits
would not count. -/
def claimNoise (s : String) : Bool :=
  has_duplicate_chars s
    || decide (100 < s.data.length)
    || decide (3 * s.data.length <
        10 * (s.data.filter (fun c => !c.isAlphanum && !c.isWhitespace)).length)

/-- The rejection rule as amended, phrased with `countP` over the two
character classes named by the amended claim. -/
def amendedNoise (s : String) : Bool :=
  decide (s.data.length < 5 * dupPairCount s.data)
    || decide (100 < s.data.length)
    || decide (3 * s.data.length <
        10 * s.data.countP (fun c => !c.isAlpha && !c.isWhitespace))

/-! ## Table classification
Model of `PDFProcessor.is_key_value_table`.  An extracted table is its
column labels (already stringified, as `str(col)` is in the source)
plus its cell rows; a pandas null cell is `none`. -/

structure PyTable where
  cols : List String
  rows : List (List (Option String))

/-- Does a first-column value end with a colon once stripped
(`x.strip().endswith(&#58;)` in the source)? -/
def colonLabel (x : String) : Bool :=
  match (pyStrip x).data.getLast? with
  | some c => c = Char.ofNat 58
  | none => false

/-- The non-null first-column values (`df.iloc[:, 0].dropna()`). -/
def firstColumn (t : PyTable) : List String :=
  t.rows.filterMap (fun r => r.headD none)

/-- Python `is_key_value_table`: more than 4 columns is tabular; any
column label containing "unnamed" (case-insensitive) is key-value;
otherwise key-value exactly when strictly more than 30% of the non-null
first-column values end with a colon
(`colon_count / len > 0.3`, i.e. `10 * colon_count > 3 * len`). -/
def is_key_value_table (t : PyTable) : Bool :=
  if 4 < t.cols.length then false
  else if t.cols.any (fun c => pyIn "unnamed" (pyLower c)) then true
  else if 0 < (firstColumn t).length then
    decide (3 * (firstColumn t).length
      < 10 * ((firstColumn t).filter colonLabel).length)
  else false

/-- The classification as claimed: column count at most 4 AND (ALL
column labels are anonymous placeholders OR the colon share exceeds
30%). -/
def claimIsKeyValue (t : PyTable) : Bool :=
  decide (t.cols.length ≤ 4)
    && (t.cols.all (fun c => pyIn "unnamed" (pyLower c))
        || decide (3 * (firstColumn t).length
            < 10 * ((firstColumn t).filter colonLabel).length))

/-- The classification as amended: column count at most 4 AND (AT LEAST
ONE column label is an anonymous placeholder OR the colon share exceeds
30%). -/
def amendedIsKeyValue (t : PyTable) : Bool :=
  decide (t.cols.length ≤ 4)
    && (t.cols.any (fun c => pyIn "unnamed" (pyLower c))
        || decide (3 * (firstColumn t).length
            < 10 * ((firstColumn t).filter colonLabel).length))

/-! ## Field resolution
Model of `ReportProcessor._create_metadata_from_tables` lines 124-132:
for a canonical field name, first an exact dictionary-key test, then
the first key (in insertion order) that contains the canonical name as
a substring. -/

/-- The inner loop: first key containing the canonical field name. -/
def findContainingKey (field : String) : List String → Option String
  | [] => none
  | k :: ks => if pyIn field k then some k else findContainingKey field ks

/-- Resolution of a canonical field against the extracted keys. -/
def resolveFieldKey (field : String) (keys : List String) : Option String :=
  if keys.contains field then some field
  else findContainingKey field keys

/-! ## Row-per-record mapping
Model of `_create_operations_from_table`,
`_create_drilling_fluid_from_table` and
`_create_gas_readings_from_table`.  A parsed tabular row is an
association list of normalized column name to cell value, in column
order (the dictionaries produced by `parse_tabular_table`). -/

/-- One parsed tabular row. -/
def Row : Type := List (String × Option String)

/-- The column-mapping loop match: first key of the row that contains
the canonical column key as a substring (`if col_key in k`). -/
def rowMatchKey (r : Row) (colKey : String) : Option String :=
  findContainingKey colKey (r.map Prod.fst)

/-- Dictionary read of a matched key. -/
def rowGet (r : Row) (k : String) : Option String :=
  match r.find? (fun p => p.1 = k) with
  | some p => p.2
  | none => none

/-- The value a text field receives: null when no key matches, else the
cell (itself possibly null). -/
def rowField (r : Row) (colKey : String) : Option String :=
  (rowMatchKey r colKey).bind (rowGet r)

/-- The value a numeric field receives: the matched cell put through
the numeric coercion. -/
def rowNumField (r : Row) (colKey : String) : Option (Int × Nat) :=
  (rowField r colKey).bind decodeNumeric

structure OperationRec where
  report_id : String
  start_time : Option String := none
  end_time : Option String := none
  end_depth_mmd : Option (Int × Nat) := none
  main_sub_activity : Option String := none
  state : Option String := none
  remark : Option String := none
  deriving DecidableEq

/-- One operations row mapped to a record (the `column_mapping` loop of
`_create_operations_from_table`). -/
def mkOperation (rid : String) (r : Row) : OperationRec :=
  { report_id := rid
    start_time := rowField r "start_time"
    end_time := rowField r "end_time"
    end_depth_mmd := rowNumField r "end_depth_mmd"
    main_sub_activity := rowField r "main_sub_activity"
    state := rowField r "state"
    remark := rowField r "remark" }

/-- Python truthiness of an optional string: None and the empty string
are falsy. -/
def pyTruthy : Option String → Bool
  | none => false
  | some s => !s.isEmpty

/-- The keep test of line 207: `if op.start_time or op.end_time or
op.remark`. -/
def keepOperation (op : OperationRec) : Bool :=
  pyTruthy op.start_time || pyTruthy op.end_time || pyTruthy op.remark

/-- `_create_operations_from_table`: map every parsed row, keep a
record only when the truthiness test passes. -/
def create_operations_from_table (rows : List Row) (rid : String) :
    List OperationRec :=
  (rows.map (mkOperation rid)).filter keepOperation

structure FluidRec where
  report_id : String
  parameter_name : Option String := none
  value : Option String := none
  unit : Option String := none
  deriving DecidableEq

/-- `_create_drilling_fluid_from_table`: raw dataframe rows; a row
shorter than two cells, or with a null or shorter-than-two-character
first cell, is dropped (the Python `not param_name` test is subsumed by
the length test since an empty string has length 0). -/
def create_drilling_fluid_from_table (rows : List (List (Option String)))
    (rid : String) : List FluidRec :=
  rows.filterMap (fun row =>
    if row.length < 2 then none
    else
      match row.headD none with
      | none => none
      | some p =>
        if p.length < 2 then none
        else some { report_id := rid, parameter_name := some p,
                    value := row.getD 1 none, unit := row.getD 2 none })

structure GasRec where
  report_id : String
  depth_m : Option (Int × Nat) := none
  c1 : Option (Int × Nat) := none
  c2 : Option (Int × Nat) := none
  c3 : Option (Int × Nat) := none
  ic4 : Option (Int × Nat) := none
  nc4 : Option (Int × Nat) := none
  ic5 : Option (Int × Nat) := none
  nc5 : Option (Int × Nat) := none
  total_gas : Option (Int × Nat) := none
  trip_gas : Option (Int × Nat) := none
  background_gas : Option (Int × Nat) := none
  connection_gas : Option (Int × Nat) := none
  deriving DecidableEq

/-- One gas-readings row mapped to a record: every field goes through
the numeric coercion. -/
def mkGasRecord (rid : String) (r : Row) : GasRec :=
  { report_id := rid
    depth_m := rowNumField r "depth_m"
    c1 := rowNumField r "c1"
    c2 := rowNumField r "c2"
    c3 := rowNumField r "c3"
    ic4 := rowNumField r "ic4"
    nc4 := rowNumField r "nc4"
    ic5 := rowNumField r "ic5"
    nc5 := rowNumField r "nc5"
    total_gas := rowNumField r "total_gas"
    trip_gas := rowNumField r "trip_gas"
    background_gas := rowNumField r "background_gas"
    connection_gas := rowNumField r "connection_gas" }

/-- The `any_value` test: some numeric field decoded non-null. -/
def gasHasValue (g : GasRec) : Bool :=
  g.depth_m.isSome || g.c1.isSome || g.c2.isSome || g.c3.isSome
    || g.ic4.isSome || g.nc4.isSome || g.ic5.isSome || g.nc5.isSome
    || g.total_gas.isSome || g.trip_gas.isSome || g.background_gas.isSome
    || g.connection_gas.isSome

/-- `_create_gas_readings_from_table`. -/
def create_gas_readings_from_table (rows : List Row) (rid : String) :
    List GasRec :=
  (rows.map (mkGasRecord rid)).filter gasHasValue

/-! ## Section list post-processing
Model of `PDFProcessor.extract_sections` lines 98-107: the candidate
sections accumulated over the pages are deduplicated by exact text
(first occurrence kept) and then sorted by `(page, y_position)`.  The
vertical offset is kept abstract as an integer coordinate; only its
order matters. -/

structure PageSection where
  page : Nat
  text : String
  yPos : Int
  pageHeight : Int

/-- First-occurrence deduplication by exact text, with the set of texts
already seen. -/
def dedupSections : List PageSection → List String → List PageSection
  | [], _ => []
  | s :: rest, seen =>
    if seen.contains s.text then dedupSections rest seen
    else s :: dedupSections rest (s.text :: seen)

/-- The Python sort key `(page, y_position)` as a boolean order. -/
def sectionLE (a b : PageSection) : Bool :=
  decide (a.page < b.page)
    || (decide (a.page = b.page) && decide (a.yPos ≤ b.yPos))

/-- The tail of `extract_sections`: deduplicate, then sort. -/
def extract_sections_post (l : List PageSection) : List PageSection :=
  (dedupSections l []).mergeSort sectionLE

/-! ## Persistence and the per-document pipeline
Model of `DatabaseManager` and
`ReportProcessor.process_pdf_to_database`.  Each `save_*` call commits
its own append on an autocommit connection (`isolation_level=None`),
which is exactly what the all-or-nothing question is about; a single
append call is taken as atomic.  `ON DELETE CASCADE` is active because
`get_db_connection` issues `PRAGMA foreign_keys = ON` by default. -/

structure ReportMeta where
  report_id : String
  wellbore_name : Option String := none
  report_period : Option String := none
  file_name : Option String := none
  deriving DecidableEq

structure DB where
  report_metadata : List ReportMeta
  operations : List OperationRec
  drilling_fluid : List FluidRec
  gas_readings : List GasRec
  deriving DecidableEq

def emptyDB : DB := ⟨[], [], [], []⟩

/-- `DatabaseManager.save_report_metadata`: append one row, return the
report id. -/
def save_report_metadata (db : DB) (m : ReportMeta) : DB × String :=
  ({ db with report_metadata := db.report_metadata ++ [m] }, m.report_id)

/-- `DatabaseManager.save_operations`. -/
def save_operations (db : DB) (ops : List OperationRec) : DB × Nat :=
  ({ db with operations := db.operations ++ ops }, ops.length)

/-- `DatabaseManager.save_drilling_fluid`. -/
def save_drilling_fluid (db : DB) (fl : List FluidRec) : DB × Nat :=
  ({ db with drilling_fluid := db.drilling_fluid ++ fl }, fl.length)

/-- `DatabaseManager.save_gas_readings`. -/
def save_gas_readings (db : DB) (gs : List GasRec) : DB × Nat :=
  ({ db with gas_readings := db.gas_readings ++ gs }, gs.length)

/-- Number of persisted rows carrying a given report id, over all four
tables. -/
def rowsForReport (db : DB) (rid : String) : Nat :=
  (db.report_metadata.filter (fun m => m.report_id = rid)).length
    + (db.operations.filter (fun o => o.report_id = rid)).length
    + (db.drilling_fluid.filter (fun f => f.report_id = rid)).length
    + (db.gas_readings.filter (fun g => g.report_id = rid)).length

/-- `DatabaseManager.delete_report`: return False untouched when no
metadata row has the id, else delete the metadata row (children go with
it by cascade) and return True. -/
def delete_report (db : DB) (rid : String) : Bool × DB :=
  if (db.report_metadata.filter (fun m => m.report_id = rid)).length = 0 then
    (false, db)
  else
    (true,
     { report_metadata := db.report_metadata.filter (fun m => !(m.report_id = rid))
       operations := db.operations.filter (fun o => !(o.report_id = rid))
       drilling_fluid := db.drilling_fluid.filter (fun f => !(f.report_id = rid))
       gas_readings := db.gas_readings.filter (fun g => !(g.report_id = rid)) })

/-- The points of `process_pdf_to_database` at which an exception can
arise: data extraction, each mapping step, each save call. -/
inductive PStage
  | stExtract
  | stMapMeta
  | stSaveMeta
  | stMapOps
  | stSaveOps
  | stMapFluid
  | stSaveFluid
  | stMapGas
  | stSaveGas
  deriving DecidableEq

/-- Everything extracted for one document: the mapped metadata and the
optional operations / drilling-fluid / gas tables (a table absent from
the extracted dictionary skips its stage entirely). -/
structure DocInput where
  meta : ReportMeta
  opsT : Option (List Row)
  fluidT : Option (List (List (Option String)))
  gasT : Option (List Row)

/-- Gas-readings stage of `process_pdf_to_database`. -/
def processGasStage (db : DB) (rid : String) (d : DocInput)
    (failAt : Option PStage) : DB × Option String :=
  match d.gasT with
  | none => (db, some rid)
  | some rows =>
    if failAt = some PStage.stMapGas || failAt = some PStage.stSaveGas then
      (db, none)
    else
      ((save_gas_readings db (create_gas_readings_from_table rows rid)).1,
       some rid)

/-- Drilling-fluid stage of `process_pdf_to_database`. -/
def processFluidStage (db : DB) (rid : String) (d : DocInput)
    (failAt : Option PStage) : DB × Option String :=
  match d.fluidT with
  | none => processGasStage db rid d failAt
  | some rows =>
    if failAt = some PStage.stMapFluid || failAt = some PStage.stSaveFluid then
      (db, none)
    else
      processGasStage
        (save_drilling_fluid db (create_drilling_fluid_from_table rows rid)).1
        rid d failAt

/-- Operations stage of `process_pdf_to_database`. -/
def processOpsStage (db : DB) (rid : String) (d : DocInput)
    (failAt : Option PStage) : DB × Option String :=
  match d.opsT with
  | none => processFluidStage db rid d failAt
  | some rows =>
    if failAt = some PStage.stMapOps || failAt = some PStage.stSaveOps then
      (db, none)
    else
      processFluidStage
        (save_operations db (create_operations_from_table rows rid)).1
        rid d failAt

/-- `process_pdf_to_database` over the store, with `failAt` naming the
first stage at which an exception is raised (none: no failure).  The
function has no exception handler, so a raise propagates immediately;
saves already committed stay committed.  The result is the final store
and the returned report id (none when the call raised). -/
def process_pdf_to_database (db0 : DB) (d : DocInput)
    (failAt : Option PStage) : DB × Option String :=
  if failAt = some PStage.stExtract || failAt = some PStage.stMapMeta then
    (db0, none)
  else if failAt = some PStage.stSaveMeta then (db0, none)
  else
    processOpsStage (save_report_metadata db0 d.meta).1 d.meta.report_id d
      failAt

/-! ## Batch controller
Model of `BatchProcessor.initialize_data` lines 64-83 for one document
slot: the worker runs `process_pdf_to_database` in an isolated process;
the controller waits with a timeout.  A worker that raises reports
`(False, error)` and the document counts neither processed nor skipped;
a worker that exceeds the deadline is terminated mid-run - the stage it
was in behaves exactly like a raising stage for the store, since
commits already made are durable and nothing rolls back - and the
document counts skipped. -/

inductive DocOutcome
  | completed
  | raisedAt (st : PStage)
  | timedOutAt (st : PStage)

structure BatchCounts where
  processed : Nat
  skipped : Nat
  deriving DecidableEq

/-- Store effect of one worker run. -/
def runWorker (db : DB) (d : DocInput) : DocOutcome → DB
  | DocOutcome.completed => (process_pdf_to_database db d none).1
  | DocOutcome.raisedAt st => (process_pdf_to_database db d (some st)).1
  | DocOutcome.timedOutAt st => (process_pdf_to_database db d (some st)).1

/-- One iteration of the batch loop: store effect plus accounting
(`processed_count += 1` on success, `skipped_count += 1` on timeout,
neither on failure). -/
def batchStep (db : DB) (c : BatchCounts) (d : DocInput)
    (oc : DocOutcome) : DB × BatchCounts :=
  let db2 := runWorker db d oc
  match oc with
  | DocOutcome.completed => (db2, { c with processed := c.processed + 1 })
  | DocOutcome.raisedAt _ => (db2, c)
  | DocOutcome.timedOutAt _ => (db2, { c with skipped := c.skipped + 1 })

/-- A concrete single-document input: metadata mapped to report id
"r1" plus an operations table, the other tables absent. -/
def docR1 : DocInput :=
  ⟨⟨"r1", none, none, none⟩, some [], none, none⟩

/-! ## Helper lemmas -/

/-- A list is a leading segment of itself. -/
theorem chLeads_refl (l : List Char) : chLeads l l = true := by
  induction l with
  | nil => rfl
  | cons c cs ih => simp [chLeads, ih]

/-- Every string contains itself as a substring. -/
theorem pyIn_refl (s : String) : pyIn s s = true := by
  unfold pyIn
  cases h : s.data with
  | nil => rfl
  | cons c cs => simp [chSub, chLeads_refl]

/-- The match loop of field resolution is `List.find?` on the substring
test. -/
theorem findContainingKey_eq (field : String) (keys : List String) :
    findContainingKey field keys = keys.find? (fun k => pyIn field k) := by
  induction keys with
  | nil => rfl
  | cons k ks ih =>
    by_cases h : pyIn field k = true
    · simp [findContainingKey, h, List.find?]
    · simp only [Bool.not_eq_true] at h
      simp [findContainingKey, h, List.find?, ih]

/-- Truthiness of an optional string, in propositional form. -/
theorem pyTruthy_iff (o : Option String) :
    pyTruthy o = true ↔ ∃ s, o = some s ∧ s ≠ "" := by
  cases o with
  | none => simp [pyTruthy]
  | some s =>
    have h : s.isEmpty = false ↔ ¬ s = "" := by
      rw [← String.isEmpty_iff]
      cases hs : s.isEmpty <;> simp
    simp [pyTruthy, h]

/-- On a digit-free list the digit scanner takes nothing. -/
theorem takeDigits_nodigit {l : List Char} (h : l.any Char.isDigit = false) :
    takeDigits l = ([], l) := by
  cases l with
  | nil => rfl
  | cons c cs =>
    simp only [List.any_cons, Bool.or_eq_false_iff] at h
    simp [takeDigits, h.1]

/-- The decimal alternative body cannot match on a digit-free list. -/
theorem matchDecBody_nodigit {sgn : List Char} {l : List Char}
    (h : l.any Char.isDigit = false) : matchDecBody sgn l = none := by
  cases l with
  | nil => rfl
  | cons c cs =>
    simp only [List.any_cons, Bool.or_eq_false_iff] at h
    unfold matchDecBody
    rw [takeDigits_nodigit (show (c :: cs).any Char.isDigit = false by
      simp [h.1, h.2])]
    by_cases hdot : c = Char.ofNat 46
    · simp [hdot, takeDigits_nodigit h.2]
    · simp [hdot]

/-- The decimal alternative cannot match on a digit-free list. -/
theorem matchDecAt_nodigit {l : List Char} (h : l.any Char.isDigit = false) :
    matchDecAt l = none := by
  cases l with
  | nil => rfl
  | cons c cs =>
    simp only [List.any_cons, Bool.or_eq_false_iff] at h
    unfold matchDecAt
    by_cases hs : (c = Char.ofNat 45 || c = Char.ofNat 43) = true
    · simp only [hs, if_true]
      exact matchDecBody_nodigit h.2
    · simp only [Bool.not_eq_true] at hs
      simp only [hs, Bool.false_eq_true, if_false]
      exact matchDecBody_nodigit (show (c :: cs).any Char.isDigit = false by
        simp [h.1, h.2])

/-- The integer alternative cannot match on a digit-free list. -/
theorem matchIntAt_nodigit {l : List Char} (h : l.any Char.isDigit = false) :
    matchIntAt l = none := by
  unfold matchIntAt
  rw [takeDigits_nodigit h]
  rfl

/-- The integer alternative does match when the head is a digit. -/
theorem matchIntAt_digit {c : Char} (cs : List Char) (h : c.isDigit = true) :
    (matchIntAt (c :: cs)).isSome = true := by
  unfold matchIntAt takeDigits
  simp [h]

/-- The regex search succeeds exactly when the text holds a digit. -/
theorem numSearch_isSome_eq (l : List Char) :
    (numSearch l).isSome = l.any Char.isDigit := by
  induction l with
  | nil => rfl
  | cons c cs ih =>
    by_cases hd : (c :: cs).any Char.isDigit = true
    · rw [hd]
      unfold numSearch
      cases hm : matchDecAt (c :: cs) with
      | some m => simp
      | none =>
        simp only [List.any_cons, Bool.or_eq_true] at hd
        rcases hd with h1 | h2
        · cases hmi : matchIntAt (c :: cs) with
          | some m => simp
          | none =>
            have := matchIntAt_digit cs h1
            rw [hmi] at this
            simp at this
        · cases hmi : matchIntAt (c :: cs) with
          | some m => simp
          | none =>
            simp only [Option.isSome_some]
            rw [ih]
            simpa using h2
    · simp only [Bool.not_eq_true] at hd
      rw [hd]
      have hall := hd
      simp only [List.any_cons, Bool.or_eq_false_iff] at hall
      unfold numSearch
      rw [matchDecAt_nodigit hd, matchIntAt_nodigit hd]
      simp only
      rw [ih, hall.2]

/-- The lexicographic section order is transitive. -/
theorem sectionLE_trans (a b c : PageSection) (hab : sectionLE a b = true)
    (hbc : sectionLE b c = true) : sectionLE a c = true := by
  simp only [sectionLE, Bool.or_eq_true, Bool.and_eq_true, decide_eq_true_eq]
    at hab hbc ⊢
  omega

/-- The lexicographic section order is total. -/
theorem sectionLE_total (a b : PageSection) :
    (sectionLE a b || sectionLE b a) = true := by
  simp only [sectionLE, Bool.or_eq_true, Bool.and_eq_true, decide_eq_true_eq]
  omega

/-- No deduplicated section carries a text already seen. -/
theorem dedup_not_seen :
    ∀ (l : List PageSection) (seen : List String),
      ∀ a ∈ dedupSections l seen, seen.contains a.text = false := by
  intro l
  induction l with
  | nil => intro seen a ha; simp [dedupSections] at ha
  | cons s rest ih =>
    intro seen a ha
    by_cases h : seen.contains s.text = true
    · simp only [dedupSections] at ha
      rw [if_pos h] at ha
      exact ih seen a ha
    · simp only [dedupSections] at ha
      rw [if_neg h] at ha
      rcases List.mem_cons.mp ha with rfl | ha2
      · simpa using h
      · have h2 := ih (s.text :: seen) a ha2
        simp only [List.contains_cons, Bool.or_eq_false_iff] at h2
        exact h2.2

/-- Deduplication yields pairwise distinct texts. -/
theorem dedup_pairwise :
    ∀ (l : List PageSection) (seen : List String),
      List.Pairwise (fun a b => a.text ≠ b.text) (dedupSections l seen) := by
  intro l
  induction l with
  | nil => intro seen; simp [dedupSections]
  | cons s rest ih =>
    intro seen
    by_cases h : seen.contains s.text = true
    · simp only [dedupSections]
      rw [if_pos h]
      exact ih seen
    · simp only [dedupSections]
      rw [if_neg h]
      refine List.Pairwise.cons ?_ (ih (s.text :: seen))
      intro b hb
      have h2 := dedup_not_seen rest (s.text :: seen) b hb
      simp only [List.contains_cons, Bool.or_eq_false_iff] at h2
      have h1 : b.text ≠ s.text := by
        intro he
        rw [he] at h2
        simp at h2
      exact fun he => h1 he.symm

/-- None of the child-table saves touches the metadata table, so a
metadata row survives the remaining stages whatever happens. -/
theorem meta_mem_gas_stage {db : DB} {rid : String} {d : DocInput}
    {failAt : Option PStage} {m : ReportMeta}
    (h : m ∈ db.report_metadata) :
    m ∈ (processGasStage db rid d failAt).1.report_metadata := by
  unfold processGasStage
  cases d.gasT with
  | none => exact h
  | some rows =>
    by_cases hf :
        (failAt = some PStage.stMapGas || failAt = some PStage.stSaveGas) = true
    · simp only [hf, if_true]; exact h
    · simp only [hf, Bool.false_eq_true, if_false]
      simpa [save_gas_readings] using h

/-- Metadata rows survive the drilling-fluid stage. -/
theorem meta_mem_fluid_stage {db : DB} {rid : String} {d : DocInput}
    {failAt : Option PStage} {m : ReportMeta}
    (h : m ∈ db.report_metadata) :
    m ∈ (processFluidStage db rid d failAt).1.report_metadata := by
  unfold processFluidStage
  cases d.fluidT with
  | none => exact meta_mem_gas_stage h
  | some rows =>
    by_cases hf :
        (failAt = some PStage.stMapFluid || failAt = some PStage.stSaveFluid) = true
    · simp only [hf, if_true]; exact h
    · simp only [hf, Bool.false_eq_true, if_false]
      exact meta_mem_gas_stage (by simpa [save_drilling_fluid] using h)

/-- Metadata rows survive the operations stage. -/
theorem meta_mem_ops_stage {db : DB} {rid : String} {d : DocInput}
    {failAt : Option PStage} {m : ReportMeta}
    (h : m ∈ db.report_metadata) :
    m ∈ (processOpsStage db rid d failAt).1.report_metadata := by
  unfold processOpsStage
  cases d.opsT with
  | none => exact meta_mem_fluid_stage h
  | some rows =>
    by_cases hf :
        (failAt = some PStage.stMapOps || failAt = some PStage.stSaveOps) = true
    · simp only [hf, if_true]; exact h
    · simp only [hf, Bool.false_eq_true, if_false]
      exact meta_mem_fluid_stage (by simpa [save_operations] using h)

/-- A failure before the metadata save leaves the store untouched and
returns no report id. -/
theorem process_early_fail (db0 : DB) (d : DocInput) {failAt : Option PStage}
    (h : failAt = some PStage.stExtract ∨ failAt = some PStage.stMapMeta
      ∨ failAt = some PStage.stSaveMeta) :
    process_pdf_to_database db0 d failAt = (db0, none) := by
  rcases h with rfl | rfl | rfl <;> rfl

/-- Once the run reaches the metadata save, a metadata row for the
document is in the final store whatever happens afterwards. -/
theorem meta_mem_process (db0 : DB) (d : DocInput) {failAt : Option PStage}
    (h : failAt ≠ some PStage.stExtract ∧ failAt ≠ some PStage.stMapMeta
      ∧ failAt ≠ some PStage.stSaveMeta) :
    d.meta ∈ (process_pdf_to_database db0 d failAt).1.report_metadata := by
  unfold process_pdf_to_database
  rw [if_neg (by simp [h.1, h.2.1]), if_neg (by simp [h.2.2])]
  exact meta_mem_ops_stage (by simp [save_report_metadata])

/-! ## Claim theorems -/

/-- C1 counterexample: the claim says a document whose processing fails
at any point leaves no rows in any of the four tables; but when the
operations mapping fails, after the metadata save has committed, the
call raises (returns no id) yet one metadata row for the document is
persisted. -/
theorem C1_counterexample :
    (process_pdf_to_database emptyDB docR1 (some PStage.stMapOps)).2 = none
      ∧ rowsForReport
          (process_pdf_to_database emptyDB docR1 (some PStage.stMapOps)).1 "r1"
          = 1 := by
  decide

/-- C1 amended: persistence is all-or-nothing only up to the metadata
save.  A failure during extraction, metadata mapping or the metadata
save itself leaves the store untouched; any later failure leaves the
rows committed by the completed earlier saves, in particular the
metadata row, so a partial entity set can persist. -/
theorem C1_atomicity_amended (db0 : DB) (d : DocInput)
    (failAt : Option PStage) :
    ((failAt = some PStage.stExtract ∨ failAt = some PStage.stMapMeta
        ∨ failAt = some PStage.stSaveMeta) →
      process_pdf_to_database db0 d failAt = (db0, none))
      ∧ ((failAt ≠ some PStage.stExtract ∧ failAt ≠ some PStage.stMapMeta
          ∧ failAt ≠ some PStage.stSaveMeta) →
        d.meta ∈ (process_pdf_to_database db0 d failAt).1.report_metadata) :=
  ⟨process_early_fail db0 d, meta_mem_process db0 d⟩

/-- C1 witness: the amended theorem applied at concrete failure
points. -/
theorem C1_witness :
    process_pdf_to_database emptyDB docR1 (some PStage.stExtract)
        = (emptyDB, none)
      ∧ docR1.meta ∈ (process_pdf_to_database emptyDB docR1
          (some PStage.stSaveOps)).1.report_metadata := by
  constructor
  · exact (C1_atomicity_amended emptyDB docR1 (some PStage.stExtract)).1
      (Or.inl rfl)
  · exact (C1_atomicity_amended emptyDB docR1 (some PStage.stSaveOps)).2
      ⟨by decide, by decide, by decide⟩

/-- C2 counterexample: a document whose worker times out during the
operations mapping is counted as skipped, as the claim says, but the
store does hold a row originating from that document (the metadata row
committed before the worker was terminated), contradicting the no-rows
part of the claim. -/
theorem C2_counterexample :
    (batchStep emptyDB ⟨0, 0⟩ docR1 (DocOutcome.timedOutAt PStage.stMapOps)).2
        = ⟨0, 1⟩
      ∧ rowsForReport
          (batchStep emptyDB ⟨0, 0⟩ docR1
            (DocOutcome.timedOutAt PStage.stMapOps)).1 "r1" = 1 := by
  decide

/-- C2 amended: a timed-out document is always counted as skipped and
never as processed (there is no failed counter at all), and the store
is left untouched only when the timeout strikes before the metadata
save; commits made before termination persist. -/
theorem C2_timeout_amended (db : DB) (c : BatchCounts) (d : DocInput)
    (st : PStage) :
    ((batchStep db c d (DocOutcome.timedOutAt st)).2.skipped = c.skipped + 1
      ∧ (batchStep db c d (DocOutcome.timedOutAt st)).2.processed = c.processed)
      ∧ ((st = PStage.stExtract ∨ st = PStage.stMapMeta
          ∨ st = PStage.stSaveMeta) →
        (batchStep db c d (DocOutcome.timedOutAt st)).1 = db) := by
  constructor
  · exact ⟨rfl, rfl⟩
  · intro h
    have h2 : some st = some PStage.stExtract ∨ some st = some PStage.stMapMeta
        ∨ some st = some PStage.stSaveMeta := by
      rcases h with rfl | rfl | rfl
      exacts [Or.inl rfl, Or.inr (Or.inl rfl), Or.inr (Or.inr rfl)]
    simp [batchStep, runWorker, process_early_fail db d h2]

/-- C2 witness: the amended theorem applied at a concrete early
timeout. -/
theorem C2_witness :
    (batchStep emptyDB ⟨0, 0⟩ docR1 (DocOutcome.timedOutAt PStage.stExtract)).1
      = emptyDB :=
  (C2_timeout_amended emptyDB ⟨0, 0⟩ docR1 PStage.stExtract).2 (Or.inl rfl)

/-- C3 counterexample: the claim says "-5" decodes to -5, the first
signed decimal-or-integer substring; the decoder yields +5, because the
sign belongs to the decimal alternative of the pattern only, and 5 and
-5 differ as numbers. -/
theorem C3_counterexample :
    decodeNumeric "-5" = some (5, 0) ∧ decValue (5, 0) ≠ decValue (-5, 0) := by
  constructor
  · decide
  · norm_num [decValue]

/-- C3 amended: the decoded value of a string cell is null exactly when
the text holds no digit (and mapping never aborts, the decoder being
total), and otherwise equals the first match of the pattern in which
the sign is captured only for decimal forms: "12.5 m" gives 12.5,
"-3.4" gives -3.4, but "-5" gives 5 and "N/A" gives null. -/
theorem C3_numeric_decode_amended :
    (∀ s : String, (decodeNumeric s).isSome = hasDigit s)
      ∧ decodeNumeric "12.5 m" = some (125, 1)
      ∧ decodeNumeric "-3.4" = some (-34, 1)
      ∧ decodeNumeric "-5" = some (5, 0)
      ∧ decodeNumeric "N/A" = none := by
  refine ⟨?_, by decide, by decide, by decide, by decide⟩
  intro s
  unfold decodeNumeric hasDigit
  rw [Option.isSome_map']
  exact numSearch_isSome_eq s.data

/-- C4 counterexample: the claim says a candidate key matches a
canonical field when either contains the other; here the candidate
"oper" is contained in the canonical field "operator", yet resolution
finds no match, because the code tests containment in one direction
only. -/
theorem C4_counterexample :
    pyIn "oper" "operator" = true
      ∧ resolveFieldKey "operator" ["oper"] = none := by
  decide

/-- C4 amended: a candidate key matches exactly when it contains the
canonical field name as a substring (one direction); an exact key is
preferred, and otherwise the first containing candidate in enumeration
order wins. -/
theorem C4_field_resolution_amended (field : String) (keys : List String) :
    ((resolveFieldKey field keys).isSome
        = keys.any (fun k => pyIn field k))
      ∧ (keys.contains field = true →
          resolveFieldKey field keys = some field)
      ∧ (keys.contains field = false →
          resolveFieldKey field keys = keys.find? (fun k => pyIn field k)) := by
  refine ⟨?_, ?_, ?_⟩
  · by_cases hc : keys.contains field = true
    · unfold resolveFieldKey
      rw [if_pos hc]
      have hmem : field ∈ keys := by simpa using hc
      have hany : (keys.any fun k => pyIn field k) = true :=
        List.any_eq_true.mpr ⟨field, hmem, pyIn_refl field⟩
      rw [hany]
      rfl
    · unfold resolveFieldKey
      rw [if_neg hc, findContainingKey_eq]
      rw [Bool.eq_iff_iff]
      simp [List.find?_isSome, List.any_eq_true]
  · intro h
    unfold resolveFieldKey
    rw [if_pos h]
  · intro h
    unfold resolveFieldKey
    rw [if_neg (by rw [h]; simp), findContainingKey_eq]

/-- C4 witness: the amended theorem applied at concrete key lists. -/
theorem C4_witness :
    resolveFieldKey "rig_name" ["rig_name"] = some "rig_name"
      ∧ resolveFieldKey "operator" ["abc", "x_operator_y"]
          = ["abc", "x_operator_y"].find? (fun k => pyIn "operator" k) := by
  constructor
  · exact (C4_field_resolution_amended "rig_name" ["rig_name"]).2.1 (by decide)
  · exact (C4_field_resolution_amended "operator" ["abc", "x_operator_y"]).2.2
      (by decide)

/-- C5 counterexample: the claim requires the column labels to be
anonymous placeholders (no real header labels at all) for the
anonymous-columns branch; this table has one real label "name" next to
one placeholder, no colons in the first column, and is still classified
key-value, because the code tests for ANY placeholder label. -/
theorem C5_counterexample :
    is_key_value_table
        ⟨["name", "Unnamed: 1"], [[some "alpha", some "beta"]]⟩ = true
      ∧ claimIsKeyValue
          ⟨["name", "Unnamed: 1"], [[some "alpha", some "beta"]]⟩ = false := by
  decide

/-- C5 amended: a table is classified key-value if and only if its
column count is at most 4 AND (at least one column label is an
anonymous placeholder OR strictly more than 30% of the non-null
first-column values end with a colon after whitespace stripping). -/
theorem C5_key_value_amended (t : PyTable) :
    is_key_value_table t = amendedIsKeyValue t := by
  unfold is_key_value_table amendedIsKeyValue
  by_cases h4 : 4 < t.cols.length
  · rw [if_pos h4, decide_eq_false (by omega : ¬ t.cols.length ≤ 4)]
    simp
  · rw [if_neg h4, decide_eq_true (by omega : t.cols.length ≤ 4)]
    by_cases hu : t.cols.any (fun c => pyIn "unnamed" (pyLower c)) = true
    · rw [if_pos hu, hu]
      simp
    · rw [if_neg hu]
      have hu2 : t.cols.any (fun c => pyIn "unnamed" (pyLower c)) = false := by
        simpa using hu
      rw [hu2]
      by_cases h0 : 0 < (firstColumn t).length
      · rw [if_pos h0]
        simp
      · rw [if_neg h0]
        have hlen : (firstColumn t).length = 0 := by omega
        have hfil : ((firstColumn t).filter colonLabel).length = 0 := by
          have hle := List.length_filter_le colonLabel (firstColumn t)
          omega
        rw [hlen, hfil]
        simp

/-- C6: identity derivation from the filename stem split on underscore:
with four or more tokens the last three joined by hyphens form the
report period and the leading tokens joined by underscores the wellbore
name, otherwise the stem itself with the literal "Unknown"; in
particular "WELL_A_2024_03_21.pdf" gives ("WELL_A", "2024-03-21") and
"report.pdf" gives ("report", "Unknown"). -/
theorem C6_filename_identity :
    derive_identity (pathStem "WELL_A_2024_03_21.pdf")
        = ("WELL_A", "2024-03-21")
      ∧ derive_identity (pathStem "report.pdf") = ("report", "Unknown")
      ∧ (∀ stem : String, (pySplitUnderscore stem).length < 4 →
          derive_identity stem = (stem, "Unknown"))
      ∧ (∀ stem : String, 4 ≤ (pySplitUnderscore stem).length →
          derive_identity stem
            = (String.intercalate "_" ((pySplitUnderscore stem).take
                ((pySplitUnderscore stem).length - 3)),
               String.intercalate "-" ((pySplitUnderscore stem).drop
                ((pySplitUnderscore stem).length - 3)))) := by
  refine ⟨by decide, by decide, ?_, ?_⟩
  · intro stem h
    unfold derive_identity
    rw [if_neg (by omega)]
  · intro stem h
    unfold derive_identity
    rw [if_pos h]

/-- C6 witness: the general clauses applied at concrete stems. -/
theorem C6_witness :
    derive_identity "report" = ("report", "Unknown")
      ∧ derive_identity "W_A_2024_03_21" = ("W_A", "2024-03-21") := by
  constructor
  · exact C6_filename_identity.2.2.1 "report" (by decide)
  · have h := C6_filename_identity.2.2.2 "W_A_2024_03_21" (by decide)
    rw [h]
    decide

/-- C7 counterexample: the claim says the special-character rule counts
non-alphanumeric non-space characters, so the digit-heavy but otherwise
clean header "A 12345678" would pass; the code counts every
non-alphabetic non-space character, digits included, and rejects it. -/
theorem C7_counterexample :
    rejectAsNoise "A 12345678" = true ∧ claimNoise "A 12345678" = false := by
  decide

/-- C7 amended: a candidate header is rejected as noise exactly when
consecutive duplicate alphabetic characters exceed 20% of its length,
or its length exceeds 100 characters, or its non-ALPHABETIC non-space
characters - digits included - exceed 30% of its length; digit-heavy
headers are therefore rejected by the special-character rule. -/
theorem C7_noise_rule_amended :
    (∀ s : String, rejectAsNoise s = amendedNoise s)
      ∧ rejectAsNoise "Header 123 456 789" = true := by
  constructor
  · intro s
    unfold rejectAsNoise amendedNoise has_duplicate_chars count_special_chars
    rw [List.countP_eq_length_filter]
  · decide

/-- C8: the section list produced by extract_sections holds pairwise
distinct header texts and is sorted ascending by the pair (page number,
vertical offset), whatever candidate sections the page scan
produced. -/
theorem C8_sections_sorted_distinct (l : List PageSection) :
    List.Pairwise (fun a b => a.text ≠ b.text) (extract_sections_post l)
      ∧ List.Pairwise
          (fun a b => a.page < b.page ∨ (a.page = b.page ∧ a.yPos ≤ b.yPos))
          (extract_sections_post l) := by
  constructor
  · unfold extract_sections_post
    exact (List.Perm.pairwise_iff (fun h => Ne.symm h)
      (List.mergeSort_perm (dedupSections l []) sectionLE)).mpr
      (dedup_pairwise l [])
  · unfold extract_sections_post
    have hs := @List.sorted_mergeSort PageSection sectionLE sectionLE_trans
      sectionLE_total (dedupSections l [])
    refine hs.imp ?_
    intro a b hab
    simpa only [sectionLE, Bool.or_eq_true, Bool.and_eq_true,
      decide_eq_true_eq] using hab

/-- C9 counterexample: the claim keeps a row when one of start_time,
end_time or remark is present; this row maps with start_time present
(an empty string cell), yet contributes no record, because the code
tests Python truthiness and an empty string is falsy. -/
theorem C9_counterexample :
    (mkOperation "r1" [("start_time", some "")]).start_time = some ""
      ∧ create_operations_from_table [[("start_time", some "")]] "r1" = [] := by
  decide

/-- C9 amended: a mapped operation row is kept if and only if at least
one of its start_time, end_time or remark fields holds a NON-EMPTY
string; a null or empty-string value counts as absent. -/
theorem C9_operations_keep_amended (rid : String) (rows : List Row)
    (op : OperationRec) :
    op ∈ create_operations_from_table rows rid ↔
      ((∃ r ∈ rows, op = mkOperation rid r)
        ∧ ((∃ s, op.start_time = some s ∧ s ≠ "")
            ∨ (∃ s, op.end_time = some s ∧ s ≠ "")
            ∨ (∃ s, op.remark = some s ∧ s ≠ ""))) := by
  unfold create_operations_from_table
  rw [List.mem_filter]
  simp only [List.mem_map, keepOperation, Bool.or_eq_true, pyTruthy_iff,
    or_assoc]
  constructor
  · rintro ⟨⟨r, hr, rfl⟩, hk⟩
    exact ⟨⟨r, hr, rfl⟩, hk⟩
  · rintro ⟨⟨r, hr, rfl⟩, hk⟩
    exact ⟨⟨r, hr, rfl⟩, hk⟩

/-- C10: delete_report returns False and leaves the store unchanged
when no metadata row carries the report id, and otherwise returns True
and removes exactly the metadata rows carrying the id. -/
theorem C10_delete_report (db : DB) (rid : String) :
    ((∀ m ∈ db.report_metadata, m.report_id ≠ rid) →
        delete_report db rid = (false, db))
      ∧ ((∃ m ∈ db.report_metadata, m.report_id = rid) →
          (delete_report db rid).1 = true
            ∧ (delete_report db rid).2.report_metadata
                = db.report_metadata.filter (fun m => !(m.report_id = rid))) := by
  constructor
  · intro h
    have hnil : db.report_metadata.filter (fun m => m.report_id = rid) = [] :=
      List.filter_eq_nil_iff.mpr (fun m hm => by simpa using h m hm)
    unfold delete_report
    rw [hnil]
    rfl
  · rintro ⟨m, hm, he⟩
    have hmem : m ∈ db.report_metadata.filter (fun m => m.report_id = rid) :=
      List.mem_filter.mpr ⟨hm, by simpa using he⟩
    have hne :
        ¬ (db.report_metadata.filter (fun m => m.report_id = rid)).length = 0 := by
      intro h0
      rw [List.length_eq_zero] at h0
      rw [h0] at hmem
      simp at hmem
    unfold delete_report
    rw [if_neg hne]
    exact ⟨rfl, rfl⟩

/-- C10 witness: the theorem applied to an empty store and to a store
holding the report. -/
theorem C10_witness :
    delete_report emptyDB "r1" = (false, emptyDB)
      ∧ (delete_report ⟨[⟨"r1", none, none, none⟩], [], [], []⟩ "r1").1
          = true := by
  constructor
  · exact (C10_delete_report emptyDB "r1").1 (by intro m hm; simp [emptyDB] at hm)
  · exact ((C10_delete_report ⟨[⟨"r1", none, none, none⟩], [], [], []⟩ "r1").2
      ⟨⟨"r1", none, none, none⟩, List.mem_cons_self _ _, rfl⟩).1

end DDR
